import Mathlib

/-!
Shallow embedding of the suica-game rule engine (`src/components/SuicaGame.tsx`,
plus the earlier 3-tier variant of the same component). Positions, velocities
and wall geometry use `ℚ` for the JS numbers involved (all arithmetic here is
exact: midpoints, comparisons against the constants 50, 0.1, 40, 560, ...).
The Matter.js physics world is modelled as the list of its bodies; each body
carries the kinematic state the rule engine reads (x, y, vertical velocity)
and the label Matter stores (`ball-<level>` for game objects, distinct labels
for the three static boundary bodies). Matter body ids are modelled by a
fresh-id counter `nextId` in the game state. React `useState` cells become
fields of `GameState`; the `setTimeout` drop cooldown becomes a
`cooldownPending` flag plus a `fireCooldown` step taking the `Math.random()`
sample as an explicit rational in `[0,1)`.
-/

namespace SuicaGame

/-- Matter body label: `ball-<level>` for game objects, or one of the three
static boundary bodies (`Matter.Bodies.rectangle` gets a non-ball default
label). `isBall` is the `label.startsWith(\x27ball-\x27)` test. -/
inductive BodyLabel where
  | ball (level : Nat)
  | ground
  | leftWall
  | rightWall
deriving DecidableEq

def BodyLabel.isBall : BodyLabel → Bool
  | .ball _ => true
  | _ => false

/-- A Matter.js body as read by the rule engine: id, label, position and
vertical velocity. -/
structure Body where
  id : Nat
  label : BodyLabel
  x : ℚ
  y : ℚ
  vy : ℚ
deriving DecidableEq

/-- One entry of `BALL_CONFIGS`: radius, fill color, emoji pattern. -/
structure TierSpec where
  radius : ℚ
  color : String
  pattern : String
deriving DecidableEq

/-- The 9-tier catalog of `src/components/SuicaGame.tsx`. -/
def BALL_CONFIGS : List TierSpec :=
  [ { radius := 25, color := "#FF8A80", pattern := "🍒" },
    { radius := 35, color := "#FFD54F", pattern := "🍋" },
    { radius := 45, color := "#FF6E40", pattern := "🍊" },
    { radius := 55, color := "#E91E63", pattern := "🍑" },
    { radius := 65, color := "#9C27B0", pattern := "🍇" },
    { radius := 75, color := "#FFC107", pattern := "🍍" },
    { radius := 85, color := "#8BC34A", pattern := "🍏" },
    { radius := 95, color := "#795548", pattern := "🥥" },
    { radius := 110, color := "#4CAF50", pattern := "🍉" } ]

def tierCount : Nat := BALL_CONFIGS.length

/-- Radius of the tier at `level` (`BALL_CONFIGS[level].radius`); out-of-range
levels never occur at the call sites (claim C10) so the default is irrelevant. -/
def tierRadius (level : Nat) : ℚ :=
  ((BALL_CONFIGS.get? level).map TierSpec.radius).getD 0

/-- The 3-tier catalog of the earlier variant (`src/unnamed/part_000`):
radii 20, 30, 45. -/
def BALL_CONFIGS_V3 : List TierSpec :=
  [ { radius := 20, color := "#FF6B6B", pattern := "" },
    { radius := 30, color := "#4ECDC4", pattern := "" },
    { radius := 45, color := "#45B7D1", pattern := "" } ]

def tierCountV3 : Nat := BALL_CONFIGS_V3.length

inductive GameMode where
  | normal
  | moon
deriving DecidableEq

/-- The `Ball` interface: the Matter body together with its level. -/
structure MBall where
  body : Body
  level : Nat
deriving DecidableEq

/-- The `ballsRef` registry: a `Map<number, Ball>` keyed by body id, modelled
as an association list id ↦ level (the body itself lives in the world list,
aliased by id). -/
abbrev Registry := List (Nat × Nat)

/-- `ballsRef.current.get(id)`. -/
def lookupBall (bs : Registry) (id : Nat) : Option Nat :=
  (bs.find? (fun p => p.1 == id)).map Prod.snd

/-- `ballsRef.current.delete(id)`. -/
def deleteBall (bs : Registry) (id : Nat) : Registry :=
  bs.filter (fun p => ! (p.1 == id))

/-- `ballsRef.current.set(id, lv)`: JS `Map.set` updates in place if the key
exists, otherwise appends. -/
def setBall (bs : Registry) (id lv : Nat) : Registry :=
  if bs.any (fun p => p.1 == id) then
    bs.map (fun p => if p.1 == id then (id, lv) else p)
  else bs ++ [(id, lv)]

inductive SessionState where
  | modeSelect
  | playing
  | gameOver
deriving DecidableEq

/-- The component state: Matter world bodies, the `ballsRef` registry, the
React state cells, the Matter fresh body-id counter, whether a `setTimeout`
cooldown is outstanding, and a ghost counter of `checkGameOver` invocations. -/
structure GameState where
  world : List Body
  balls : Registry
  score : Nat
  gameOver : Bool
  nextBallLevel : Nat
  canDrop : Bool
  dropPosition : ℚ
  gameMode : GameMode
  gameStarted : Bool
  nextId : Nat
  cooldownPending : Bool
  monitorCalls : Nat
deriving DecidableEq

/-- Session state as the spec names it: `gameStarted`/`gameOver` encode
ModeSelect / Playing / GameOver. -/
def sessionOf (s : GameState) : SessionState :=
  if !s.gameStarted then .modeSelect
  else if s.gameOver then .gameOver
  else .playing

/-- The `createBall` helper: a fresh dynamic circle labelled `ball-<level>`
at (x, y); Matter assigns the fresh id. Material constants (restitution,
friction, density) vary with mode but are not read by any rule, so they are
not carried. -/
def createBall (x y : ℚ) (level : Nat) (freshId : Nat) : MBall :=
  { body := { id := freshId, label := .ball level, x := x, y := y, vy := 0 },
    level := level }

/-- The per-body game-over test of the 9-tier variant:
`ball.position.y < 50 && ball.velocity.y < 0.1` on ball-labelled bodies. -/
def checkGameOverCond (b : Body) : Bool :=
  b.label.isBall && decide (b.y < 50) && decide (b.vy < (1 : ℚ)/10)

/-- `checkGameOver` scan of the 9-tier variant over the world's bodies. -/
def checkGameOverPred (w : List Body) : Bool :=
  w.any checkGameOverCond

/-- The per-body game-over test of the 3-tier variant (`part_000`):
`ball.position.y < 100`, with no velocity condition. -/
def checkGameOverCondV3 (b : Body) : Bool :=
  b.label.isBall && decide (b.y < 100)

/-- `checkGameOver` scan of the 3-tier variant. -/
def checkGameOverPredV3 (w : List Body) : Bool :=
  w.any checkGameOverCondV3

inductive MergeOutcome where
  | merged
  | noMerge
deriving DecidableEq

/-- The `mergeBalls` function. The TS function returns void; the
`MergeOutcome` component records whether the guard passed (ghost
instrumentation for stating the claims). On merge: compute the midpoint,
remove both bodies from the world and both registry entries, create the
`level+1` ball at the midpoint (fresh Matter id), add and register it, and
add `(newLevel+1)*10` points. -/
def mergeBalls (s : GameState) (ballA ballB : MBall) : MergeOutcome × GameState :=
  if ballA.level ≠ ballB.level ∨ tierCount - 1 ≤ ballA.level then (.noMerge, s)
  else
    (.merged,
      { s with
        world :=
          (s.world.filter
            (fun b => ! (b.id == ballA.body.id) && ! (b.id == ballB.body.id)))
            ++ [(createBall ((ballA.body.x + ballB.body.x) / 2)
                  ((ballA.body.y + ballB.body.y) / 2)
                  (ballA.level + 1) s.nextId).body],
        balls :=
          setBall (deleteBall (deleteBall s.balls ballA.body.id) ballB.body.id)
            s.nextId (ballA.level + 1),
        score := s.score + (ballA.level + 1 + 1) * 10,
        nextId := s.nextId + 1 })

/-- Body of the `collisionStart` handler for one pair: if both labels are
ball labels, look both ids up in `ballsRef`; if both are found and the levels
agree, call `mergeBalls`; otherwise do nothing. -/
def processPairOut (s : GameState) (pA pB : Body) : MergeOutcome × GameState :=
  if pA.label.isBall && pB.label.isBall then
    match lookupBall s.balls pA.id, lookupBall s.balls pB.id with
    | some lA, some lB =>
        if lA == lB then mergeBalls s ⟨pA, lA⟩ ⟨pB, lB⟩ else (.noMerge, s)
    | _, _ => (.noMerge, s)
  else (.noMerge, s)

/-- State after one pair of the batch. -/
def stepPair (s : GameState) (p : Body × Body) : GameState :=
  (processPairOut s p.1 p.2).2

/-- `event.pairs.forEach(...)`: process a collision batch in order. -/
def processBatch (s : GameState) (pairs : List (Body × Body)) : GameState :=
  pairs.foldl stepPair s

/-- The `dropBall` handler: rejected unless `canDrop`, not `gameOver`, and
the engine exists (the drop surface is only mounted while the game is
started). Otherwise spawn a `nextBallLevel` ball at `(dropPosition, 60)`,
register it, clear `canDrop`, and schedule the cooldown re-enable. -/
def dropBall (s : GameState) : GameState :=
  if !s.canDrop || s.gameOver || !s.gameStarted then s
  else
    { s with
      world := s.world ++ [(createBall s.dropPosition 60 s.nextBallLevel s.nextId).body],
      balls := setBall s.balls s.nextId s.nextBallLevel,
      canDrop := false,
      cooldownPending := true,
      nextId := s.nextId + 1 }

/-- The cooldown duration passed to `setTimeout`:
`gameMode === \x27moon\x27 ? 800 : 500` (milliseconds). -/
def dropDelay (m : GameMode) : Nat :=
  if m == .moon then 800 else 500

/-- The redraw `Math.floor(Math.random() * 5)` for a sample `u ∈ [0,1)`. -/
def randomTierDraw (u : ℚ) : Nat :=
  (Int.floor (u * 5)).toNat

/-- The redraw `Math.floor(Math.random() * 2)` of the 3-tier variant. -/
def randomTierDrawV3 (u : ℚ) : Nat :=
  (Int.floor (u * 2)).toNat

/-- Firing of the scheduled `setTimeout` callback: re-enable dropping and
redraw the next level; a no-op when no cooldown is outstanding. -/
def fireCooldown (s : GameState) (u : ℚ) : GameState :=
  if s.cooldownPending then
    { s with canDrop := true, nextBallLevel := randomTierDraw u,
             cooldownPending := false }
  else s

/-- The `handleMouseMove` clamp `Math.max(40, Math.min(560, x))`. -/
def clampDropX (x : ℚ) : ℚ :=
  max 40 (min 560 x)

def handleMouseMove (s : GameState) (x : ℚ) : GameState :=
  { s with dropPosition := clampDropX x }

/-- Wall geometry of the 9-tier variant: rectangles of width 20 centred at
x = 10 and x = 590, so the inner edges sit at 20 and 580. -/
def wallWidth : ℚ := 20

def leftWallCenterX : ℚ := 10

def rightWallCenterX : ℚ := 590

def leftWallInnerX : ℚ := leftWallCenterX + wallWidth / 2

def rightWallInnerX : ℚ := rightWallCenterX - wallWidth / 2

/-- The `resetGame` handler: remove every ball-labelled body from the world
(static boundaries persist), clear the registry, and reset score, gameOver,
canDrop, nextBallLevel and gameStarted. The outstanding `setTimeout` (if
any) is not cancelled, so `cooldownPending` is kept. -/
def resetGame (s : GameState) : GameState :=
  { s with
    world := s.world.filter (fun b => ! b.label.isBall),
    balls := [],
    score := 0,
    gameOver := false,
    canDrop := true,
    nextBallLevel := 0,
    gameStarted := false }

/-- The three static boundary bodies the mount effect adds to a fresh
engine world. -/
def boundaryBodies (baseId : Nat) : List Body :=
  [ { id := baseId, label := .ground, x := 300, y := 490, vy := 0 },
    { id := baseId + 1, label := .leftWall, x := 10, y := 250, vy := 0 },
    { id := baseId + 2, label := .rightWall, x := 590, y := 250, vy := 0 } ]

/-- The `startGame` handler plus the mount effect it triggers: record the
mode, reset score/gameOver/canDrop/nextBallLevel, and build a fresh engine
world holding only the boundaries. The mode-select buttons exist only while
`gameStarted` is false, so the operation is a no-op from a started game. -/
def startGame (s : GameState) (mode : GameMode) : GameState :=
  if s.gameStarted then s
  else
    { s with
      gameMode := mode,
      gameStarted := true,
      score := 0,
      gameOver := false,
      canDrop := true,
      nextBallLevel := 0,
      world := boundaryBodies s.nextId,
      nextId := s.nextId + 3 }

/-- One Matter simulation tick followed by the `afterUpdate` handler: the
engine moves the dynamic (ball) bodies — `move` gives each id its new
(x, y, vy) — and then `checkGameOver()` runs unconditionally; it only ever
sets the flag, so `gameOver` latches. `monitorCalls` is the ghost count of
`checkGameOver` invocations. -/
def tickGame (s : GameState) (move : Nat → ℚ × ℚ × ℚ) : GameState :=
  if s.gameStarted then
    let world1 := s.world.map (fun b =>
      if b.label.isBall then
        { b with x := (move b.id).1, y := (move b.id).2.1, vy := (move b.id).2.2 }
      else b)
    { s with
      world := world1,
      gameOver := s.gameOver || checkGameOverPred world1,
      monitorCalls := s.monitorCalls + 1 }
  else s

/-- The external events and UI commands that drive the component. -/
inductive Op where
  | tick (move : Nat → ℚ × ℚ × ℚ)
  | collide (pairs : List (Body × Body))
  | drop
  | mouseMove (x : ℚ)
  | reset
  | start (mode : GameMode)
  | fire (u : ℚ)

def isReset : Op → Bool
  | .reset => true
  | _ => false

def applyOp (s : GameState) : Op → GameState
  | .tick move => tickGame s move
  | .collide pairs => if s.gameStarted then processBatch s pairs else s
  | .drop => dropBall s
  | .mouseMove x => handleMouseMove s x
  | .reset => resetGame s
  | .start m => startGame s m
  | .fire u => fireCooldown s u

/-- Environment well-formedness of an event: `Math.random()` samples lie in
`[0, 1)`. -/
def WfOp : Op → Prop
  | .fire u => 0 ≤ u ∧ u < 1
  | _ => True

/-- Initial component state: empty world and registry, score 0, mode-select
screen, `canDrop = true`, `nextBallLevel = 0`, `dropPosition = 400`. -/
def initState : GameState :=
  { world := [], balls := [], score := 0, gameOver := false,
    nextBallLevel := 0, canDrop := true, dropPosition := 400,
    gameMode := .normal, gameStarted := false, nextId := 0,
    cooldownPending := false, monitorCalls := 0 }

/-- States reachable from the initial state under well-formed events. -/
inductive Reachable : GameState → Prop where
  | init : Reachable initState
  | step {s : GameState} (op : Op) : Reachable s → WfOp op → Reachable (applyOp s op)

/-- Registry keys are below the fresh-id counter (Matter assigns strictly
increasing ids). -/
def ballsFresh (s : GameState) : Prop :=
  ∀ p ∈ s.balls, p.1 < s.nextId

/-- A collision pair mentions the id X. -/
def pairMentions (p : Body × Body) (X : Nat) : Prop :=
  p.1.id = X ∨ p.2.id = X

/-! Concrete sample states and bodies used to instantiate the theorems below
on explicit inputs. -/

def c1BodyA : Body := { id := 1, label := .ball 0, x := 100, y := 400, vy := 0 }

def c1BodyB : Body := { id := 2, label := .ball 0, x := 140, y := 400, vy := 0 }

def c1State : GameState :=
  { world := [c1BodyA, c1BodyB], balls := [(1, 0), (2, 0)], score := 0,
    gameOver := false, nextBallLevel := 0, canDrop := true, dropPosition := 300,
    gameMode := .normal, gameStarted := true, nextId := 3,
    cooldownPending := false, monitorCalls := 0 }

/-- A ball above the ceiling line moving upward fast (velocity.y = -5). -/
def c2Body : Body := { id := 0, label := .ball 0, x := 300, y := 40, vy := -5 }

def c3BodyA : Body := { id := 1, label := .ball 0, x := 100, y := 400, vy := 0 }

def c3BodyB : Body := { id := 2, label := .ball 0, x := 140, y := 400, vy := 0 }

def c3State : GameState :=
  { world := [c3BodyA, c3BodyB], balls := [(1, 0), (2, 0)], score := 0,
    gameOver := false, nextBallLevel := 0, canDrop := true, dropPosition := 300,
    gameMode := .normal, gameStarted := true, nextId := 3,
    cooldownPending := false, monitorCalls := 0 }

def c4BodyA : Body := { id := 1, label := .ball 8, x := 100, y := 400, vy := 0 }

def c4BodyB : Body := { id := 2, label := .ball 8, x := 140, y := 400, vy := 0 }

def c5State : GameState :=
  { world := [], balls := [], score := 0, gameOver := false,
    nextBallLevel := 0, canDrop := true, dropPosition := 300,
    gameMode := .normal, gameStarted := true, nextId := 7,
    cooldownPending := false, monitorCalls := 0 }

/-- A started session that has already reached game over. -/
def c8State : GameState :=
  { initState with gameStarted := true, gameOver := true }

/-! Helper lemmas about the registry operations. -/

theorem lookupBall_eq_none_iff (bs : Registry) (a : Nat) :
    lookupBall bs a = none ↔ ∀ p ∈ bs, p.1 ≠ a := by
  simp [lookupBall, List.find?_eq_none]

theorem lookupBall_mem {bs : Registry} {a v : Nat}
    (h : lookupBall bs a = some v) : (a, v) ∈ bs := by
  unfold lookupBall at h
  cases hf : bs.find? (fun p => p.1 == a) with
  | none => rw [hf] at h; simp at h
  | some q =>
    rw [hf] at h
    have hmem := List.mem_of_find?_eq_some hf
    have hq := List.find?_some hf
    obtain ⟨q1, q2⟩ := q
    simp at h hq
    subst hq
    subst h
    exact hmem

theorem mem_deleteBall {bs : Registry} {c : Nat} {p : Nat × Nat}
    (h : p ∈ deleteBall bs c) : p ∈ bs :=
  (List.mem_filter.mp h).1

theorem lookupBall_deleteBall_self (bs : Registry) (a : Nat) :
    lookupBall (deleteBall bs a) a = none := by
  rw [lookupBall_eq_none_iff]
  intro p hp
  have := (List.mem_filter.mp hp).2
  simpa using this

theorem lookupBall_deleteBall_of_none {bs : Registry} {a c : Nat}
    (h : lookupBall bs a = none) : lookupBall (deleteBall bs c) a = none := by
  rw [lookupBall_eq_none_iff] at h ⊢
  exact fun p hp => h p (mem_deleteBall hp)

theorem mem_setBall {bs : Registry} {i lv : Nat} {p : Nat × Nat}
    (h : p ∈ setBall bs i lv) : p ∈ bs ∨ p = (i, lv) := by
  unfold setBall at h
  split at h
  · obtain ⟨q, hq, hq2⟩ := List.mem_map.mp h
    split at hq2
    · right; exact hq2.symm
    · left; exact hq2 ▸ hq
  · rcases List.mem_append.mp h with h1 | h2
    · left; exact h1
    · right; simpa using h2

theorem setBall_of_forall_ne {bs : Registry} {i : Nat} (lv : Nat)
    (h : ∀ p ∈ bs, p.1 ≠ i) : setBall bs i lv = bs ++ [(i, lv)] := by
  have hany : bs.any (fun p => p.1 == i) = false := by
    rw [List.any_eq_false]
    intro p hp
    simpa using h p hp
  unfold setBall
  rw [hany]
  simp

theorem lookupBall_setBall_of_none {bs : Registry} {i lv X : Nat}
    (h : lookupBall bs X = none) (hne : X ≠ i) :
    lookupBall (setBall bs i lv) X = none := by
  rw [lookupBall_eq_none_iff] at h ⊢
  intro p hp
  rcases mem_setBall hp with h1 | h1
  · exact h p h1
  · rw [h1]; exact fun hc => hne hc.symm

theorem lookupBall_append_of_none {bs cs : Registry} {a : Nat}
    (h : lookupBall bs a = none) :
    lookupBall (bs ++ cs) a = lookupBall cs a := by
  unfold lookupBall at h ⊢
  have hf : bs.find? (fun p => p.1 == a) = none := Option.map_eq_none'.mp h
  rw [List.find?_append, hf]
  rfl

theorem lookupBall_singleton_self (a lv : Nat) :
    lookupBall [(a, lv)] a = some lv := by
  simp [lookupBall]

theorem lookupBall_singleton_ne {a i lv : Nat} (h : a ≠ i) :
    lookupBall [(i, lv)] a = none := by
  rw [lookupBall_eq_none_iff]
  intro p hp
  simp only [List.mem_singleton] at hp
  rw [hp]
  exact fun hc => h hc.symm

/-! Counting lemmas: removing the entries carrying one or two distinct keys
from a list whose keys are distinct removes exactly one or two elements. -/

theorem filter_key_eq_self {α : Type} (key : α → Nat) {l : List α} {b : Nat}
    (hb : ∀ x ∈ l, key x ≠ b) :
    l.filter (fun x => ! (key x == b)) = l := by
  rw [List.filter_eq_self]
  intro x hx
  simpa using hb x hx

theorem length_filter_key_one {α : Type} (key : α → Nat) {l : List α} {b : Nat}
    (hnd : (l.map key).Nodup) (hb : ∃ x ∈ l, key x = b) :
    (l.filter (fun x => ! (key x == b))).length + 1 = l.length := by
  induction l with
  | nil => simp at hb
  | cons x xs ih =>
    rw [List.map_cons, List.nodup_cons] at hnd
    obtain ⟨hx, hnd2⟩ := hnd
    by_cases hxb : key x = b
    · have hxs : ∀ y ∈ xs, key y ≠ b := by
        intro y hy hyb
        exact hx (List.mem_map.mpr ⟨y, hy, by rw [hyb, hxb]⟩)
      have hfx : xs.filter (fun x => ! (key x == b)) = xs := filter_key_eq_self key hxs
      simp [List.filter_cons, hxb, hfx]
    · obtain ⟨y, hy, hyb⟩ := hb
      have hyxs : y ∈ xs := by
        rcases List.mem_cons.mp hy with h1 | h1
        · exact absurd (h1 ▸ hyb) hxb
        · exact h1
      have := ih hnd2 ⟨y, hyxs, hyb⟩
      simp only [List.filter_cons]
      have hpx : (! (key x == b)) = true := by simpa using hxb
      rw [hpx]
      simp only [if_true, List.length_cons]
      omega

theorem length_filter_key_two {α : Type} (key : α → Nat) {l : List α} {a b : Nat}
    (hnd : (l.map key).Nodup) (hab : a ≠ b)
    (ha : ∃ x ∈ l, key x = a) (hb : ∃ x ∈ l, key x = b) :
    (l.filter (fun x => ! (key x == a) && ! (key x == b))).length + 2 = l.length := by
  induction l with
  | nil => simp at ha
  | cons x xs ih =>
    rw [List.map_cons, List.nodup_cons] at hnd
    obtain ⟨hx, hnd2⟩ := hnd
    by_cases hxa : key x = a
    · have hbs : ∃ y ∈ xs, key y = b := by
        obtain ⟨y, hy, hyb⟩ := hb
        rcases List.mem_cons.mp hy with h1 | h1
        · exfalso
          apply hab
          rw [← hxa, ← hyb, h1]
        · exact ⟨y, h1, hyb⟩
      have hxs : ∀ y ∈ xs, key y ≠ a := by
        intro y hy hya
        exact hx (List.mem_map.mpr ⟨y, hy, by rw [hya, hxa]⟩)
      have hcongr : xs.filter (fun y => ! (key y == a) && ! (key y == b))
          = xs.filter (fun y => ! (key y == b)) := by
        apply List.filter_congr
        intro y hy
        have : (! (key y == a)) = true := by simpa using hxs y hy
        rw [this, Bool.true_and]
      have hone := length_filter_key_one key hnd2 hbs
      have hpx : (! (key x == a) && ! (key x == b)) = false := by
        simp [hxa]
      rw [List.filter_cons, hpx, if_neg Bool.false_ne_true, hcongr]
      simp only [List.length_cons]
      omega
    · by_cases hxb : key x = b
      · have has : ∃ y ∈ xs, key y = a := by
          obtain ⟨y, hy, hya⟩ := ha
          rcases List.mem_cons.mp hy with h1 | h1
          · exfalso
            apply hab
            rw [← hya, h1, hxb]
          · exact ⟨y, h1, hya⟩
        have hxs : ∀ y ∈ xs, key y ≠ b := by
          intro y hy hyb
          exact hx (List.mem_map.mpr ⟨y, hy, by rw [hyb, hxb]⟩)
        have hcongr : xs.filter (fun y => ! (key y == a) && ! (key y == b))
            = xs.filter (fun y => ! (key y == a)) := by
          apply List.filter_congr
          intro y hy
          have : (! (key y == b)) = true := by simpa using hxs y hy
          rw [this, Bool.and_true]
        have hone := length_filter_key_one key hnd2 has
        have hpx : (! (key x == a) && ! (key x == b)) = false := by
          simp [hxb]
        rw [List.filter_cons, hpx, if_neg Bool.false_ne_true, hcongr]
        simp only [List.length_cons]
        omega
      · have has : ∃ y ∈ xs, key y = a := by
          obtain ⟨y, hy, hya⟩ := ha
          rcases List.mem_cons.mp hy with h1 | h1
          · exact absurd (h1 ▸ hya) hxa
          · exact ⟨y, h1, hya⟩
        have hbs : ∃ y ∈ xs, key y = b := by
          obtain ⟨y, hy, hyb⟩ := hb
          rcases List.mem_cons.mp hy with h1 | h1
          · exact absurd (h1 ▸ hyb) hxb
          · exact ⟨y, h1, hyb⟩
        have := ih hnd2 has hbs
        have hpx : (! (key x == a) && ! (key x == b)) = true := by
          simp [hxa, hxb]
        rw [List.filter_cons, hpx, if_pos rfl]
        simp only [List.length_cons]
        omega

theorem deleteBall_deleteBall (bs : Registry) (a b : Nat) :
    deleteBall (deleteBall bs a) b
      = bs.filter (fun p => ! (p.1 == a) && ! (p.1 == b)) := by
  induction bs with
  | nil => rfl
  | cons p ps ih =>
    by_cases h1 : (p.1 == a) = true
    · simp [deleteBall, List.filter_cons, h1] at ih ⊢
      exact ih
    · by_cases h2 : (p.1 == b) = true
      · simp [deleteBall, List.filter_cons, h1, h2] at ih ⊢
        exact ih
      · simp [deleteBall, List.filter_cons, h1, h2] at ih ⊢
        exact ih

/-! Case analysis and frame lemmas for collision-batch processing. -/

theorem processPairOut_cases (s : GameState) (pA pB : Body) :
    processPairOut s pA pB = (.noMerge, s) ∨
    ∃ lA lB, lookupBall s.balls pA.id = some lA ∧
      lookupBall s.balls pB.id = some lB ∧ lA = lB ∧
      processPairOut s pA pB = mergeBalls s ⟨pA, lA⟩ ⟨pB, lB⟩ := by
  unfold processPairOut
  by_cases h : (pA.label.isBall && pB.label.isBall) = true
  · rw [if_pos h]
    cases h1 : lookupBall s.balls pA.id with
    | none => left; rfl
    | some lA =>
      cases h2 : lookupBall s.balls pB.id with
      | none => left; rfl
      | some lB =>
        by_cases h3 : (lA == lB) = true
        · right
          refine ⟨lA, lB, rfl, rfl, by simpa using h3, ?_⟩
          simp [h3]
        · left
          simp [h3]
  · rw [if_neg h]
    left
    rfl

theorem mergeBalls_frame (s : GameState) (ballA ballB : MBall) :
    (mergeBalls s ballA ballB).2.gameOver = s.gameOver ∧
    (mergeBalls s ballA ballB).2.gameStarted = s.gameStarted ∧
    (mergeBalls s ballA ballB).2.canDrop = s.canDrop ∧
    (mergeBalls s ballA ballB).2.nextBallLevel = s.nextBallLevel ∧
    (mergeBalls s ballA ballB).2.cooldownPending = s.cooldownPending ∧
    (mergeBalls s ballA ballB).2.monitorCalls = s.monitorCalls ∧
    s.nextId ≤ (mergeBalls s ballA ballB).2.nextId := by
  unfold mergeBalls
  split
  · exact ⟨rfl, rfl, rfl, rfl, rfl, rfl, Nat.le_refl _⟩
  · exact ⟨rfl, rfl, rfl, rfl, rfl, rfl, Nat.le_succ _⟩

theorem stepPair_frame (s : GameState) (p : Body × Body) :
    (stepPair s p).gameOver = s.gameOver ∧
    (stepPair s p).gameStarted = s.gameStarted ∧
    (stepPair s p).canDrop = s.canDrop ∧
    (stepPair s p).nextBallLevel = s.nextBallLevel ∧
    (stepPair s p).cooldownPending = s.cooldownPending ∧
    (stepPair s p).monitorCalls = s.monitorCalls ∧
    s.nextId ≤ (stepPair s p).nextId := by
  unfold stepPair
  rcases processPairOut_cases s p.1 p.2 with hc | ⟨lA, lB, h1, h2, h3, hc⟩ <;> rw [hc]
  · exact ⟨rfl, rfl, rfl, rfl, rfl, rfl, Nat.le_refl _⟩
  · exact mergeBalls_frame s ⟨p.1, lA⟩ ⟨p.2, lB⟩

theorem processBatch_frame (s : GameState) (l : List (Body × Body)) :
    (processBatch s l).gameOver = s.gameOver ∧
    (processBatch s l).gameStarted = s.gameStarted ∧
    (processBatch s l).canDrop = s.canDrop ∧
    (processBatch s l).nextBallLevel = s.nextBallLevel ∧
    (processBatch s l).cooldownPending = s.cooldownPending ∧
    (processBatch s l).monitorCalls = s.monitorCalls ∧
    s.nextId ≤ (processBatch s l).nextId := by
  induction l generalizing s with
  | nil => exact ⟨rfl, rfl, rfl, rfl, rfl, rfl, Nat.le_refl _⟩
  | cons p ps ih =>
    have h1 := stepPair_frame s p
    have h2 := ih (stepPair s p)
    refine ⟨?_, ?_, ?_, ?_, ?_, ?_, ?_⟩
    · rw [show processBatch s (p :: ps) = processBatch (stepPair s p) ps from rfl,
        h2.1, h1.1]
    · rw [show processBatch s (p :: ps) = processBatch (stepPair s p) ps from rfl,
        h2.2.1, h1.2.1]
    · rw [show processBatch s (p :: ps) = processBatch (stepPair s p) ps from rfl,
        h2.2.2.1, h1.2.2.1]
    · rw [show processBatch s (p :: ps) = processBatch (stepPair s p) ps from rfl,
        h2.2.2.2.1, h1.2.2.2.1]
    · rw [show processBatch s (p :: ps) = processBatch (stepPair s p) ps from rfl,
        h2.2.2.2.2.1, h1.2.2.2.2.1]
    · rw [show processBatch s (p :: ps) = processBatch (stepPair s p) ps from rfl,
        h2.2.2.2.2.2.1, h1.2.2.2.2.2.1]
    · exact le_trans h1.2.2.2.2.2.2 h2.2.2.2.2.2.2

theorem processBatch_append (s : GameState) (l1 l2 : List (Body × Body)) :
    processBatch s (l1 ++ l2) = processBatch (processBatch s l1) l2 :=
  List.foldl_append _ _ _ _

theorem ballsFresh_stepPair {s : GameState} (h : ballsFresh s) (p : Body × Body) :
    ballsFresh (stepPair s p) := by
  unfold stepPair
  rcases processPairOut_cases s p.1 p.2 with hc | ⟨lA, lB, h1, h2, h3, hc⟩ <;> rw [hc]
  · exact h
  · unfold mergeBalls
    split
    · exact h
    · intro q hq
      rcases mem_setBall hq with hq1 | hq1
      · have := h q (mem_deleteBall (mem_deleteBall hq1))
        exact Nat.lt_succ_of_lt this
      · rw [hq1]
        exact Nat.lt_succ_self _

theorem ballsFresh_processBatch {s : GameState} (h : ballsFresh s)
    (l : List (Body × Body)) : ballsFresh (processBatch s l) := by
  induction l generalizing s with
  | nil => exact h
  | cons p ps ih => exact ih (ballsFresh_stepPair h p)

theorem lookupBall_stepPair_of_none {s : GameState} {X : Nat}
    (hN : lookupBall s.balls X = none) (hlt : X < s.nextId) (p : Body × Body) :
    lookupBall (stepPair s p).balls X = none ∧ X < (stepPair s p).nextId := by
  unfold stepPair
  rcases processPairOut_cases s p.1 p.2 with hc | ⟨lA, lB, h1, h2, h3, hc⟩ <;> rw [hc]
  · exact ⟨hN, hlt⟩
  · unfold mergeBalls
    split
    · exact ⟨hN, hlt⟩
    · constructor
      · exact lookupBall_setBall_of_none
          (lookupBall_deleteBall_of_none (lookupBall_deleteBall_of_none hN))
          (Nat.ne_of_lt hlt)
      · exact Nat.lt_succ_of_lt hlt

theorem lookupBall_processBatch_of_none {s : GameState} {X : Nat}
    (hN : lookupBall s.balls X = none) (hlt : X < s.nextId)
    (l : List (Body × Body)) :
    lookupBall (processBatch s l).balls X = none ∧
    X < (processBatch s l).nextId := by
  induction l generalizing s with
  | nil => exact ⟨hN, hlt⟩
  | cons p ps ih =>
    obtain ⟨h1, h2⟩ := lookupBall_stepPair_of_none hN hlt p
    exact ih h1 h2

theorem processPairOut_stale {s : GameState} {X : Nat}
    (h : lookupBall s.balls X = none) {pA pB : Body}
    (hm : pA.id = X ∨ pB.id = X) :
    processPairOut s pA pB = (.noMerge, s) := by
  unfold processPairOut
  by_cases hl : (pA.label.isBall && pB.label.isBall) = true
  · rw [if_pos hl]
    rcases hm with hm | hm
    · rw [hm, h]
    · cases hx : lookupBall s.balls pA.id with
      | none => rfl
      | some lA => rw [hm, h]
  · rw [if_neg hl]

/-! Claim theorems. -/

/-- C2 counterexample: the claim states that game-over requires the vertical
velocity MAGNITUDE to be below the near-rest threshold, so a fast-moving
object above the ceiling (in either direction) must not trigger game-over.
The code tests the signed velocity `ball.velocity.y < 0.1`, so a ball above
the ceiling moving upward fast (velocity.y = -5, magnitude 5 ≥ 0.1) does
trigger game-over, refuting the claim at this input. -/
theorem checkGameOver_magnitude_counterexample :
    checkGameOverCond c2Body = true ∧
    checkGameOverPred [c2Body] = true ∧
    c2Body.y < 50 ∧
    ¬ |c2Body.vy| < (1 : ℚ)/10 := by
  refine ⟨?_, ?_, ?_, ?_⟩
  · norm_num [checkGameOverCond, c2Body, BodyLabel.isBall]
  · norm_num [checkGameOverPred, checkGameOverCond, c2Body, BodyLabel.isBall,
      List.any_cons, List.any_nil]
  · norm_num [c2Body]
  · show ¬ |(-5 : ℚ)| < (1 : ℚ)/10
    rw [abs_of_nonpos (by norm_num)]
    norm_num

/-- C2 amended: in the 9-tier variant the scan reports game-over iff some
ball-labelled body has vertical position above the ceiling (y < 50) and
SIGNED vertical velocity below the threshold (vy < 0.1) — a fast-falling
ball above the ceiling does not trigger it, but a fast-rising one does; in
the 3-tier variant the scan reports game-over iff some ball has y < 100,
with no velocity condition at all. -/
theorem checkGameOver_signed_velocity_spec (w : List Body) :
    (checkGameOverPred w = true ↔
      ∃ b ∈ w, b.label.isBall = true ∧ b.y < 50 ∧ b.vy < (1 : ℚ)/10) ∧
    (checkGameOverPredV3 w = true ↔
      ∃ b ∈ w, b.label.isBall = true ∧ b.y < 100) := by
  constructor
  · simp [checkGameOverPred, checkGameOverCond, List.any_eq_true, and_assoc]
  · simp [checkGameOverPredV3, checkGameOverCondV3, List.any_eq_true]

/-- C4: whenever merge resolution yields NoMerge — the two objects have
different tiers, or both sit at the terminal tier — the resolver has no side
effect at all: registry, physics world and score are returned unchanged. -/
theorem mergeBalls_noMerge_frame (s : GameState) (ballA ballB : MBall)
    (h : ballA.level ≠ ballB.level ∨
      (ballA.level = tierCount - 1 ∧ ballB.level = tierCount - 1)) :
    mergeBalls s ballA ballB = (.noMerge, s) := by
  unfold mergeBalls
  rw [if_pos]
  rcases h with h | ⟨h1, h2⟩
  · exact Or.inl h
  · exact Or.inr (le_of_eq h1.symm)

/-- C4 witness: two terminal-tier (level 8) balls collide in a concrete
state; resolution is NoMerge and the state is returned unchanged. -/
theorem mergeBalls_noMerge_frame_witness :
    mergeBalls initState ⟨c4BodyA, 8⟩ ⟨c4BodyB, 8⟩ = (MergeOutcome.noMerge, initState) :=
  mergeBalls_noMerge_frame initState ⟨c4BodyA, 8⟩ ⟨c4BodyB, 8⟩
    (Or.inr ⟨by decide, by decide⟩)

/-- C6: whenever `canDrop` is false or the session is not Playing, a drop
request is rejected and the whole state — registry, score, and the DropGate
fields `canDrop`/`nextBallLevel` — is left completely unchanged. -/
theorem dropBall_rejected_frame (s : GameState)
    (h : s.canDrop = false ∨ sessionOf s ≠ SessionState.playing) :
    dropBall s = s := by
  have hguard : (!s.canDrop || s.gameOver || !s.gameStarted) = true := by
    rcases h with h | h
    · rw [h]; rfl
    · cases hs : s.gameStarted with
      | false => simp [hs]
      | true =>
        cases hg : s.gameOver with
        | false =>
          exfalso
          apply h
          unfold sessionOf
          rw [hs, hg]
          rfl
        | true => simp [hg]
  unfold dropBall
  rw [hguard, if_pos rfl]

/-- C6 witness: in the initial (mode-select) state the session is not
Playing, and a drop request leaves the state unchanged. -/
theorem dropBall_rejected_frame_witness : dropBall initState = initState :=
  dropBall_rejected_frame initState (Or.inr (by decide))

/-- C7: after reset the registry is empty, the score is 0, the session is
back at ModeSelect, the game-over flag is cleared, `canDrop` is true, every
ball-labelled body is removed from the physics world, and every non-ball
(static boundary) body is kept. -/
theorem resetGame_clears_spec (s : GameState) :
    (resetGame s).balls = [] ∧
    (resetGame s).score = 0 ∧
    sessionOf (resetGame s) = SessionState.modeSelect ∧
    (resetGame s).gameOver = false ∧
    (resetGame s).canDrop = true ∧
    (∀ b ∈ (resetGame s).world, b.label.isBall = false) ∧
    (∀ b ∈ s.world, b.label.isBall = false → b ∈ (resetGame s).world) := by
  refine ⟨rfl, rfl, rfl, rfl, rfl, ?_, ?_⟩
  · intro b hb
    have := (List.mem_filter.mp hb).2
    simpa using this
  · intro b hb hlb
    exact List.mem_filter.mpr ⟨hb, by simp [hlb]⟩

/-- C9 counterexample: the claim says the clamp keeps the spawned object's
full radius inside the walls. The clamp is to [40, 560] while the left
wall's inner edge is at x = 20 and the tier-0 radius is 25: a drop requested
at x = 0 is clamped to 40, and 40 - 25 = 15 < 20, so the ball's disc
protrudes into the wall — the claimed bound fails even for the smallest
droppable tier. -/
theorem clamp_radius_violation :
    tierRadius 0 = 25 ∧ clampDropX 0 = 40 ∧ leftWallInnerX = 20 ∧
    clampDropX 0 - tierRadius 0 < leftWallInnerX := by
  have hr : tierRadius 0 = 25 := rfl
  have hc : clampDropX 0 = 40 := by
    norm_num [clampDropX, max_def, min_def]
  have hl : leftWallInnerX = 20 := by
    norm_num [leftWallInnerX, leftWallCenterX, wallWidth]
  refine ⟨hr, hc, hl, ?_⟩
  rw [hr, hc, hl]
  norm_num

/-- C9 amended: the horizontal spawn position is clamped to the fixed
interval [40, 560], independent of the tier radius; this keeps the spawn
CENTER strictly inside the walls' inner edges (20 and 580) but does not
keep the full radius inside them. -/
theorem clamp_center_bounds_spec (x : ℚ) :
    40 ≤ clampDropX x ∧ clampDropX x ≤ 560 ∧
    leftWallInnerX < clampDropX x ∧ clampDropX x < rightWallInnerX := by
  have h1 : (40 : ℚ) ≤ clampDropX x := le_max_left _ _
  have h2 : clampDropX x ≤ 560 := max_le (by norm_num) (min_le_left _ _)
  refine ⟨h1, h2, ?_, ?_⟩
  · have h3 : leftWallInnerX < (40 : ℚ) := by
      norm_num [leftWallInnerX, leftWallCenterX, wallWidth]
    exact lt_of_lt_of_le h3 h1
  · have h3 : (560 : ℚ) < rightWallInnerX := by
      norm_num [rightWallInnerX, rightWallCenterX, wallWidth]
    exact lt_of_le_of_lt h2 h3

/-- C1: resolving a collision of two registered objects of the same tier t,
with t below the terminal tier, performs exactly one merge: both objects
disappear from the registry and from the physics world, exactly one new
object of tier t+1 appears (registered and placed at the arithmetic midpoint
of the two positions, registry and world each shrink by one), and the score
grows by exactly (t+2)*10. -/
theorem mergeBalls_same_tier_spec (s : GameState) (ballA ballB : MBall) (t : Nat)
    (hA : ballA.level = t) (hB : ballB.level = t) (ht : t < tierCount - 1)
    (hne : ballA.body.id ≠ ballB.body.id)
    (hrA : lookupBall s.balls ballA.body.id = some t)
    (hrB : lookupBall s.balls ballB.body.id = some t)
    (hkeys : (s.balls.map Prod.fst).Nodup)
    (hwids : (s.world.map Body.id).Nodup)
    (hwA : ∃ b ∈ s.world, b.id = ballA.body.id)
    (hwB : ∃ b ∈ s.world, b.id = ballB.body.id)
    (hBF : ∀ p ∈ s.balls, p.1 < s.nextId) :
    (mergeBalls s ballA ballB).1 = MergeOutcome.merged ∧
    lookupBall (mergeBalls s ballA ballB).2.balls ballA.body.id = none ∧
    lookupBall (mergeBalls s ballA ballB).2.balls ballB.body.id = none ∧
    lookupBall (mergeBalls s ballA ballB).2.balls s.nextId = some (t + 1) ∧
    (∀ b ∈ (mergeBalls s ballA ballB).2.world,
      b.id ≠ ballA.body.id ∧ b.id ≠ ballB.body.id) ∧
    (∃ b ∈ (mergeBalls s ballA ballB).2.world,
      b.id = s.nextId ∧ b.label = BodyLabel.ball (t + 1) ∧
      b.x = (ballA.body.x + ballB.body.x) / 2 ∧
      b.y = (ballA.body.y + ballB.body.y) / 2) ∧
    (mergeBalls s ballA ballB).2.balls.length + 1 = s.balls.length ∧
    (mergeBalls s ballA ballB).2.world.length + 1 = s.world.length ∧
    (mergeBalls s ballA ballB).2.score = s.score + (t + 2) * 10 := by
  subst hA
  have hAlt : ballA.body.id < s.nextId := hBF _ (lookupBall_mem hrA)
  have hBlt : ballB.body.id < s.nextId := hBF _ (lookupBall_mem hrB)
  have hguard : ¬(ballA.level ≠ ballB.level ∨ tierCount - 1 ≤ ballA.level) := by
    rintro (hc | hc)
    · exact hc hB.symm
    · omega
  have hfresh1 : ∀ p ∈ deleteBall (deleteBall s.balls ballA.body.id) ballB.body.id,
      p.1 ≠ s.nextId :=
    fun p hp => Nat.ne_of_lt (hBF p (mem_deleteBall (mem_deleteBall hp)))
  have hnone1 : lookupBall
      (deleteBall (deleteBall s.balls ballA.body.id) ballB.body.id) s.nextId = none :=
    (lookupBall_eq_none_iff _ _).mpr hfresh1
  unfold mergeBalls
  rw [if_neg hguard]
  refine ⟨rfl, ?_, ?_, ?_, ?_, ?_, ?_, ?_, rfl⟩
  · exact lookupBall_setBall_of_none
      (lookupBall_deleteBall_of_none (lookupBall_deleteBall_self s.balls ballA.body.id))
      (Nat.ne_of_lt hAlt)
  · exact lookupBall_setBall_of_none
      (lookupBall_deleteBall_self _ ballB.body.id)
      (Nat.ne_of_lt hBlt)
  · show lookupBall
        (setBall (deleteBall (deleteBall s.balls ballA.body.id) ballB.body.id)
          s.nextId (ballA.level + 1)) s.nextId = some (ballA.level + 1)
    rw [setBall_of_forall_ne _ hfresh1, lookupBall_append_of_none hnone1]
    exact lookupBall_singleton_self _ _
  · intro b hb
    rcases List.mem_append.mp hb with hf | hn
    · have h2 := (List.mem_filter.mp hf).2
      constructor
      · intro hc
        simp [hc] at h2
      · intro hc
        simp [hc] at h2
    · rw [List.mem_singleton] at hn
      rw [hn]
      exact ⟨fun hc => absurd hc.symm (Nat.ne_of_lt hAlt),
        fun hc => absurd hc.symm (Nat.ne_of_lt hBlt)⟩
  · refine ⟨(createBall ((ballA.body.x + ballB.body.x) / 2)
        ((ballA.body.y + ballB.body.y) / 2) (ballA.level + 1) s.nextId).body,
      List.mem_append.mpr (Or.inr (List.mem_singleton.mpr rfl)), rfl, rfl, rfl, rfl⟩
  · show (setBall (deleteBall (deleteBall s.balls ballA.body.id) ballB.body.id)
        s.nextId (ballA.level + 1)).length + 1 = s.balls.length
    rw [setBall_of_forall_ne _ hfresh1, List.length_append, deleteBall_deleteBall]
    have hcount := length_filter_key_two Prod.fst hkeys hne
      ⟨(ballA.body.id, ballA.level), lookupBall_mem hrA, rfl⟩
      ⟨(ballB.body.id, ballA.level), lookupBall_mem hrB, rfl⟩
    simp only [List.length_singleton]
    omega
  · show ((s.world.filter
        (fun b => ! (b.id == ballA.body.id) && ! (b.id == ballB.body.id)))
        ++ [(createBall ((ballA.body.x + ballB.body.x) / 2)
          ((ballA.body.y + ballB.body.y) / 2)
          (ballA.level + 1) s.nextId).body]).length + 1 = s.world.length
    rw [List.length_append]
    have hcount := length_filter_key_two Body.id hwids hne hwA hwB
    simp only [List.length_singleton]
    omega

/-- C1 witness: two registered tier-0 balls at (100,400) and (140,400) merge
in a concrete state; the outcome is Merge and the score grows by 20. -/
theorem mergeBalls_same_tier_spec_witness :
    (mergeBalls c1State ⟨c1BodyA, 0⟩ ⟨c1BodyB, 0⟩).1 = MergeOutcome.merged ∧
    (mergeBalls c1State ⟨c1BodyA, 0⟩ ⟨c1BodyB, 0⟩).2.score
      = c1State.score + (0 + 2) * 10 := by
  have h := mergeBalls_same_tier_spec c1State ⟨c1BodyA, 0⟩ ⟨c1BodyB, 0⟩ 0
    rfl rfl (by decide) (by decide) rfl rfl (by decide) (by decide)
    ⟨c1BodyA, by decide, rfl⟩ ⟨c1BodyB, by decide, rfl⟩ (by decide)
  exact ⟨h.1, h.2.2.2.2.2.2.2.2⟩

/-- C3: if the id X is consumed by a merge while processing an earlier pair
of a collision batch (X was registered after some prefix of the batch and is
no longer registered after the batch prefix `pre`), then any later pair that
references X resolves as NoMerge with no change at all to the state:
registry, physics world and score are untouched, and the stale lookup is
absorbed rather than surfaced. -/
theorem batch_stale_pair_noop (s : GameState) (hF : ballsFresh s)
    (pre rest : List (Body × Body)) (X : Nat) (j : Nat) (hj : j ≤ pre.length)
    (hreg : (lookupBall (processBatch s (List.take j pre)).balls X).isSome = true)
    (hcons : lookupBall (processBatch s pre).balls X = none)
    (i : Nat) (hi : i < rest.length)
    (hX : pairMentions (rest.get ⟨i, hi⟩) X) :
    processPairOut (processBatch (processBatch s pre) (List.take i rest))
        (rest.get ⟨i, hi⟩).1 (rest.get ⟨i, hi⟩).2
      = (MergeOutcome.noMerge,
          processBatch (processBatch s pre) (List.take i rest)) := by
  obtain ⟨v, hv⟩ := Option.isSome_iff_exists.mp hreg
  have hFj : ballsFresh (processBatch s (List.take j pre)) :=
    ballsFresh_processBatch hF _
  have hltj : X < (processBatch s (List.take j pre)).nextId :=
    hFj (X, v) (lookupBall_mem hv)
  have hsplit : processBatch s pre
      = processBatch (processBatch s (List.take j pre)) (List.drop j pre) := by
    rw [← processBatch_append, List.take_append_drop]
  have hlt : X < (processBatch s pre).nextId := by
    rw [hsplit]
    exact lt_of_lt_of_le hltj (processBatch_frame _ _).2.2.2.2.2.2
  have hmid := lookupBall_processBatch_of_none hcons hlt (List.take i rest)
  exact processPairOut_stale hmid.1 hX

/-- C3 witness: in a concrete state two tier-0 balls (ids 1 and 2) merge on
the first pair of a batch; re-processing the same pair afterwards mentions
the consumed id 1 and is a NoMerge no-op. -/
theorem batch_stale_pair_noop_witness :
    processPairOut
        (processBatch (processBatch c3State [(c3BodyA, c3BodyB)])
          (List.take 0 [(c3BodyA, c3BodyB)]))
        ([(c3BodyA, c3BodyB)].get ⟨0, by decide⟩).1
        ([(c3BodyA, c3BodyB)].get ⟨0, by decide⟩).2
      = (MergeOutcome.noMerge,
          processBatch (processBatch c3State [(c3BodyA, c3BodyB)])
            (List.take 0 [(c3BodyA, c3BodyB)])) := by
  refine batch_stale_pair_noop c3State ?_ [(c3BodyA, c3BodyB)] [(c3BodyA, c3BodyB)]
    1 0 (by decide) ?_ ?_ 0 (by decide) (Or.inl rfl)
  · intro p hp
    have hpc : p = (1, 0) ∨ p = (2, 0) := by simpa [c3State] using hp
    rcases hpc with rfl | rfl <;> decide
  · rfl
  · rfl

/-- Floor of five times a uniform sample in [0,1) stays within the droppable
tier ceiling of the 9-tier variant. -/
theorem randomTierDraw_le {u : ℚ} (h0 : 0 ≤ u) (h1 : u < 1) :
    randomTierDraw u ≤ 4 := by
  unfold randomTierDraw
  rw [Int.toNat_le]
  have h5 : u * 5 < ((5 : ℤ) : ℚ) := by
    push_cast
    nlinarith
  have := Int.floor_lt.mpr h5
  omega

/-- Floor of twice a uniform sample in [0,1) stays within the droppable tier
ceiling of the 3-tier variant. -/
theorem randomTierDrawV3_le {u : ℚ} (h0 : 0 ≤ u) (h1 : u < 1) :
    randomTierDrawV3 u ≤ 1 := by
  unfold randomTierDrawV3
  rw [Int.toNat_le]
  have h2 : u * 2 < ((2 : ℤ) : ℚ) := by
    push_cast
    nlinarith
  have := Int.floor_lt.mpr h2
  omega

/-- C5 counterexample: the claim says the drop cooldown is SHORTER in
low-gravity ("moon") mode than in normal mode, but the code passes
`gameMode === moon ? 800 : 500` to setTimeout: the moon cooldown is 800 ms
versus 500 ms for normal, so it is longer, not shorter. -/
theorem dropDelay_moon_not_shorter :
    dropDelay .moon = 800 ∧ dropDelay .normal = 500 ∧
    ¬ dropDelay .moon < dropDelay .normal := by
  refine ⟨rfl, rfl, by decide⟩

/-- C5 amended: a successful drop spawns exactly one object of tier
`nextBallLevel` at the stored (previously clamped) x position and spawn
height 60, registers it under the fresh id, clears `canDrop`, leaves the
score alone, and schedules a single deferred re-enable; the fixed cooldown
duration is LONGER in moon mode (800 ms) than in normal mode (500 ms); when
the cooldown fires, `canDrop` becomes true and the pending tier is redrawn
as floor(u*5) for the uniform sample u in [0,1), hence uniformly from
[0, 4]. -/
theorem dropBall_spawn_cooldown_spec (s : GameState)
    (h1 : s.canDrop = true) (h2 : s.gameOver = false) (h3 : s.gameStarted = true)
    (hBF : ballsFresh s) :
    (∃ b ∈ (dropBall s).world, b.id = s.nextId ∧
      b.label = BodyLabel.ball s.nextBallLevel ∧
      b.x = s.dropPosition ∧ b.y = 60) ∧
    (dropBall s).world.length = s.world.length + 1 ∧
    lookupBall (dropBall s).balls s.nextId = some s.nextBallLevel ∧
    (dropBall s).balls.length = s.balls.length + 1 ∧
    (dropBall s).canDrop = false ∧
    (dropBall s).cooldownPending = true ∧
    (dropBall s).score = s.score ∧
    dropDelay .normal = 500 ∧ dropDelay .moon = 800 ∧
    dropDelay .normal < dropDelay .moon ∧
    (∀ u : ℚ, 0 ≤ u → u < 1 →
      (fireCooldown (dropBall s) u).canDrop = true ∧
      (fireCooldown (dropBall s) u).nextBallLevel = randomTierDraw u ∧
      (fireCooldown (dropBall s) u).nextBallLevel ≤ 4 ∧
      (fireCooldown (dropBall s) u).cooldownPending = false) := by
  have hguard : (!s.canDrop || s.gameOver || !s.gameStarted) = false := by
    rw [h1, h2, h3]
    rfl
  have hfresh : ∀ p ∈ s.balls, p.1 ≠ s.nextId :=
    fun p hp => Nat.ne_of_lt (hBF p hp)
  have hnone : lookupBall s.balls s.nextId = none :=
    (lookupBall_eq_none_iff _ _).mpr hfresh
  unfold dropBall
  rw [hguard, if_neg Bool.false_ne_true]
  refine ⟨⟨(createBall s.dropPosition 60 s.nextBallLevel s.nextId).body,
      List.mem_append.mpr (Or.inr (List.mem_singleton.mpr rfl)),
      rfl, rfl, rfl, rfl⟩,
    ?_, ?_, ?_, rfl, rfl, rfl, rfl, rfl, by decide, ?_⟩
  · simp [List.length_append]
  · show lookupBall (setBall s.balls s.nextId s.nextBallLevel) s.nextId
      = some s.nextBallLevel
    rw [setBall_of_forall_ne _ hfresh, lookupBall_append_of_none hnone]
    exact lookupBall_singleton_self _ _
  · show (setBall s.balls s.nextId s.nextBallLevel).length = s.balls.length + 1
    rw [setBall_of_forall_ne _ hfresh, List.length_append]
    rfl
  · intro u hu0 hu1
    unfold fireCooldown
    rw [if_pos rfl]
    exact ⟨rfl, rfl, randomTierDraw_le hu0 hu1, rfl⟩

/-- C5 witness: a concrete drop from a Playing state with the gate open
clears the gate, schedules the cooldown, and grows the registry by one. -/
theorem dropBall_spawn_cooldown_spec_witness :
    (dropBall c5State).canDrop = false ∧
    (dropBall c5State).cooldownPending = true ∧
    (dropBall c5State).balls.length = c5State.balls.length + 1 := by
  have h := dropBall_spawn_cooldown_spec c5State rfl rfl rfl
    (by intro p hp; simp [c5State] at hp)
  exact ⟨h.2.2.2.2.1, h.2.2.2.2.2.1, h.2.2.2.1⟩

/-- C8 counterexample: the claim says the game-over monitor is not consulted
again until a reset; but the afterUpdate handler calls checkGameOver
unconditionally on every tick, so in a concrete GameOver state one more tick
increments the monitor-invocation count. -/
theorem gameOver_monitor_still_consulted :
    sessionOf c8State = SessionState.gameOver ∧
    (applyOp c8State (Op.tick (fun _ => (0, 0, 0)))).monitorCalls
      = c8State.monitorCalls + 1 ∧
    c8State.monitorCalls + 1 ≠ c8State.monitorCalls := by
  refine ⟨rfl, rfl, by simp⟩

/-- C8 amended: the game-over transition is latched — once the session is in
GameOver, no operation other than an explicit reset returns it to Playing or
ModeSelect (the monitor keeps being consulted on every tick, but a further
consultation can only re-assert the flag, never clear it); reset clears the
flag and returns to ModeSelect. -/
theorem gameOver_latched_spec (s : GameState) (op : Op)
    (hG : s.gameOver = true) (hS : s.gameStarted = true)
    (hR : isReset op = false) :
    (applyOp s op).gameOver = true ∧
    sessionOf (applyOp s op) = SessionState.gameOver ∧
    (resetGame s).gameOver = false ∧
    sessionOf (resetGame s) = SessionState.modeSelect := by
  have hmain : (applyOp s op).gameOver = true ∧ (applyOp s op).gameStarted = true := by
    cases op with
    | tick move =>
      constructor
      · show (tickGame s move).gameOver = true
        unfold tickGame
        rw [hS]
        simp [hG]
      · show (tickGame s move).gameStarted = true
        unfold tickGame
        rw [hS]
        simp
    | collide pairs =>
      have hred : applyOp s (.collide pairs) = processBatch s pairs := by
        show (if s.gameStarted = true then processBatch s pairs else s)
          = processBatch s pairs
        rw [hS, if_pos rfl]
      rw [hred]
      exact ⟨by rw [(processBatch_frame s pairs).1, hG],
        by rw [(processBatch_frame s pairs).2.1, hS]⟩
    | drop =>
      have hd : dropBall s = s := by
        unfold dropBall
        simp [hG]
      show (dropBall s).gameOver = true ∧ (dropBall s).gameStarted = true
      rw [hd]
      exact ⟨hG, hS⟩
    | mouseMove x => exact ⟨hG, hS⟩
    | reset => simp [isReset] at hR
    | start m =>
      show (startGame s m).gameOver = true ∧ (startGame s m).gameStarted = true
      unfold startGame
      rw [hS, if_pos rfl]
      exact ⟨hG, hS⟩
    | fire u =>
      show (fireCooldown s u).gameOver = true ∧ (fireCooldown s u).gameStarted = true
      unfold fireCooldown
      split
      · exact ⟨hG, hS⟩
      · exact ⟨hG, hS⟩
  refine ⟨hmain.1, ?_, rfl, rfl⟩
  unfold sessionOf
  rw [hmain.1, hmain.2]
  rfl

/-- C8 witness: in a concrete GameOver state, a drop request (a non-reset
operation) leaves the session latched in GameOver. -/
theorem gameOver_latched_spec_witness :
    (applyOp c8State Op.drop).gameOver = true :=
  (gameOver_latched_spec c8State Op.drop rfl rfl rfl).1

/-- Registered levels stay within the tier catalog across one collision
pair: a merge only registers `level + 1` after checking `level` is below the
terminal tier. -/
theorem ballLevels_stepPair {s : GameState}
    (h : ∀ p ∈ s.balls, p.2 ≤ tierCount - 1) (q : Body × Body) :
    ∀ p ∈ (stepPair s q).balls, p.2 ≤ tierCount - 1 := by
  unfold stepPair
  rcases processPairOut_cases s q.1 q.2 with hc | ⟨lA, lB, h1, h2, h3, hc⟩ <;> rw [hc]
  · exact h
  · unfold mergeBalls
    split
    · exact h
    · next hg =>
      rw [not_or] at hg
      have hlt : lA < tierCount - 1 := not_le.mp hg.2
      intro p hp
      rcases mem_setBall hp with hp1 | hp1
      · exact h p (mem_deleteBall (mem_deleteBall hp1))
      · rw [hp1]
        show lA + 1 ≤ tierCount - 1
        omega

theorem ballLevels_processBatch {s : GameState}
    (h : ∀ p ∈ s.balls, p.2 ≤ tierCount - 1) (l : List (Body × Body)) :
    ∀ p ∈ (processBatch s l).balls, p.2 ≤ tierCount - 1 := by
  induction l generalizing s with
  | nil => exact h
  | cons q qs ih => exact ih (ballLevels_stepPair h q)

/-- DropGate and registry tier bounds hold in every reachable state:
`nextBallLevel` stays within [0, 4] and every registered level stays within
the catalog. -/
theorem reachable_inv {s : GameState} (h : Reachable s) :
    s.nextBallLevel ≤ 4 ∧ ∀ p ∈ s.balls, p.2 ≤ tierCount - 1 := by
  induction h with
  | init =>
    constructor
    · exact Nat.zero_le _
    · intro p hp
      exact absurd hp (by simp [initState])
  | @step s op hr hwf ih =>
    obtain ⟨ih1, ih2⟩ := ih
    cases op with
    | tick move =>
      show (tickGame s move).nextBallLevel ≤ 4 ∧
        ∀ p ∈ (tickGame s move).balls, p.2 ≤ tierCount - 1
      unfold tickGame
      split
      · exact ⟨ih1, ih2⟩
      · exact ⟨ih1, ih2⟩
    | collide pairs =>
      show (if s.gameStarted = true then processBatch s pairs else s).nextBallLevel ≤ 4 ∧
        ∀ p ∈ (if s.gameStarted = true then processBatch s pairs else s).balls,
          p.2 ≤ tierCount - 1
      split
      · constructor
        · rw [(processBatch_frame s pairs).2.2.2.1]
          exact ih1
        · exact ballLevels_processBatch ih2 pairs
      · exact ⟨ih1, ih2⟩
    | drop =>
      show (dropBall s).nextBallLevel ≤ 4 ∧
        ∀ p ∈ (dropBall s).balls, p.2 ≤ tierCount - 1
      unfold dropBall
      split
      · exact ⟨ih1, ih2⟩
      · refine ⟨ih1, ?_⟩
        intro p hp
        rcases mem_setBall hp with hp1 | hp1
        · exact ih2 p hp1
        · rw [hp1]
          show s.nextBallLevel ≤ tierCount - 1
          have h9 : tierCount = 9 := rfl
          omega
    | mouseMove x => exact ⟨ih1, ih2⟩
    | reset =>
      show (resetGame s).nextBallLevel ≤ 4 ∧
        ∀ p ∈ (resetGame s).balls, p.2 ≤ tierCount - 1
      refine ⟨Nat.zero_le _, ?_⟩
      intro p hp
      exact absurd hp (by simp [resetGame])
    | start m =>
      show (startGame s m).nextBallLevel ≤ 4 ∧
        ∀ p ∈ (startGame s m).balls, p.2 ≤ tierCount - 1
      unfold startGame
      split
      · exact ⟨ih1, ih2⟩
      · exact ⟨Nat.zero_le _, ih2⟩
    | fire u =>
      show (fireCooldown s u).nextBallLevel ≤ 4 ∧
        ∀ p ∈ (fireCooldown s u).balls, p.2 ≤ tierCount - 1
      unfold fireCooldown
      split
      · exact ⟨randomTierDraw_le hwf.1 hwf.2, ih2⟩
      · exact ⟨ih1, ih2⟩

/-- Every index below the catalog length hits an entry. -/
theorem ballConfigs_get_isSome {n : Nat} (hn : n < tierCount) :
    (BALL_CONFIGS.get? n).isSome = true := by
  cases hc : BALL_CONFIGS.get? n with
  | none =>
    rw [List.get?_eq_none] at hc
    have hl : tierCount = BALL_CONFIGS.length := rfl
    omega
  | some v => rfl

/-- C10: in every reachable state the pending tier lies in [0, 4], strictly
below the terminal tier, and every registered level lies within the catalog;
a successful merge always produces a level in [1, tierCount-1]; hence every
`BALL_CONFIGS[level]` lookup made by createBall on behalf of dropBall,
mergeBalls, startGame or resetGame is in bounds. In the 3-tier variant the
redrawn pending tier lies in [0, 1], strictly below its terminal tier 2. -/
theorem tier_index_in_bounds_spec (s : GameState) (h : Reachable s) :
    s.nextBallLevel ≤ 4 ∧
    s.nextBallLevel < tierCount - 1 ∧
    (BALL_CONFIGS.get? s.nextBallLevel).isSome = true ∧
    (∀ p ∈ s.balls, p.2 ≤ tierCount - 1) ∧
    (∀ (t : GameState) (ballA ballB : MBall),
      (mergeBalls t ballA ballB).1 = MergeOutcome.merged →
        1 ≤ ballA.level + 1 ∧ ballA.level + 1 ≤ tierCount - 1 ∧
        (BALL_CONFIGS.get? (ballA.level + 1)).isSome = true) ∧
    (∀ u : ℚ, 0 ≤ u → u < 1 →
      randomTierDrawV3 u ≤ 1 ∧ randomTierDrawV3 u < tierCountV3 - 1) := by
  obtain ⟨ih1, ih2⟩ := reachable_inv h
  have h9 : tierCount = 9 := rfl
  refine ⟨ih1, by omega, ballConfigs_get_isSome (by omega), ih2, ?_, ?_⟩
  · intro t ballA ballB hm
    unfold mergeBalls at hm
    by_cases hg : ballA.level ≠ ballB.level ∨ tierCount - 1 ≤ ballA.level
    · rw [if_pos hg] at hm
      exact absurd hm (by simp)
    · rw [not_or] at hg
      have hlt : ballA.level < tierCount - 1 := not_le.mp hg.2
      exact ⟨by omega, by omega, ballConfigs_get_isSome (by omega)⟩
  · intro u hu0 hu1
    have hle := randomTierDrawV3_le hu0 hu1
    have h3 : tierCountV3 = 3 := rfl
    exact ⟨hle, by omega⟩

/-- C10 witness: the invariant instantiated at the initial state. -/
theorem tier_index_in_bounds_spec_witness :
    initState.nextBallLevel ≤ 4 :=
  (tier_index_in_bounds_spec initState Reachable.init).1

end SuicaGame
